import Mathlib

/-!
Shallow embedding of the capture-job orchestrator of the photobooth
application, translated from
`src/photobooth/services/processor/base.py` and
`src/photobooth/services/processor/video.py`.

Conventions of the embedding:
* Python `Path` values are represented by `String`.
* Python `float` durations are represented by `ℚ` (exact arithmetic over the
  same field operations the code performs).
* Python `UUID` values are represented by `ℕ` (only identity matters).
* Filesystem side effects (mkdir, rename, shutil.move, unlink, sleep) are
  recorded as explicit action traces; the outcome of each fallible syscall is
  an input of the embedded function, so every branch of the Python code is
  represented.
-/

namespace Photobooth

/-- The `Capture` dataclass of base.py: one raw file from one hardware trigger. -/
structure Capture where
  filepath : String
  uuid : ℕ
deriving DecidableEq

/-- The `CaptureSet` dataclass of base.py: the files of one capture round. -/
structure CaptureSet where
  captures : List Capture
  uuid : ℕ
deriving DecidableEq

/-- The local helper `remove_files` inside `JobModelBase.on_exit_approval`:
it attempts `capture.filepath.unlink()` for every capture of the set,
logging and swallowing any exception. The embedding returns the list of
file paths whose deletion is attempted (best effort, never raising). -/
def remove_files (capture_set : CaptureSet) : List String :=
  capture_set.captures.map (fun c => c.filepath)

/-- The three events `on_exit_approval` distinguishes
(`self._status_sm.next`, `.reject`, `.abort`). -/
inductive ApprovalEvent where
  | next
  | reject
  | abort
deriving DecidableEq

/-- Embedding of `JobModelBase.on_exit_approval` (base.py lines 184-206), acting on
the `_capture_sets` list of the job. Result: first component is `some newSets`
(mutated list) on normal return, `none` when the Python code raises
(`list.pop()` on an empty list raises `IndexError` before any unlink is
attempted); second component is the list of file paths whose deletion was
attempted before returning/raising. `next` does nothing; `reject` pops the
most recently appended set and removes its files; `abort` removes the files
of every set and clears the list. -/
def on_exit_approval (capture_sets : List CaptureSet) (event : ApprovalEvent) :
    Option (List CaptureSet) × List String :=
  match event with
  | .next => (some capture_sets, [])
  | .reject =>
    match capture_sets.getLast? with
    | none => (none, [])
    | some lastSet => (some capture_sets.dropLast, remove_files lastSet)
  | .abort => (some [], (capture_sets.map remove_files).flatten)

/-- The `jobcontrol` variants used by `start_countdown` and
`sm_cond_ask_user_for_approval` (SingleImageJobControl, VideoJobControl,
MulticameraJobControl, MultiImageJobControl), with the configuration fields
those two methods read. -/
inductive JobControl where
  | singleImage (countdown_capture : ℚ)
  | video (countdown_capture : ℚ)
  | multicamera (countdown_capture : ℚ)
  | multiImage (countdown_capture : ℚ) (countdown_capture_second_following : ℚ)
      (ask_approval_each_capture : Bool)
deriving DecidableEq

/-- The job-model state the claims exercise: the `jobcontrol` of the configuration
set, the `_capture_sets` list, the `_duration` of the countdown timer
and the variant-defined `total_captures_to_take` property.
`countdown_timer_duration` is modelled from the spec: `CountdownTimer`
(utils/countdowntimer.py) is not part of the supplied source; per the spec
it "starts with a duration", so the field holds the duration last passed to
`start`, `0` before any countdown has been configured. -/
structure JobModel where
  jobcontrol : JobControl
  capture_sets : List CaptureSet
  countdown_timer_duration : ℚ
  total_captures_to_take : ℕ

/-- The `JobModelBase.captures_taken` property: `len(self._capture_sets)`. -/
def captures_taken (m : JobModel) : ℕ :=
  m.capture_sets.length

/-- The `JobModelBase.remaining_captures_to_take` property (base.py line 229):
`self.total_captures_to_take - self.captures_taken`, Python integer
subtraction (may be negative). -/
def remaining_captures_to_take (m : JobModel) : ℤ :=
  (m.total_captures_to_take : ℤ) - (captures_taken m : ℤ)

/-- Embedding of `JobModelBase.sm_cond_all_captures_done`. -/
def sm_cond_all_captures_done (m : JobModel) : Bool :=
  decide (captures_taken m ≥ m.total_captures_to_take)

/-- Embedding of `JobModelBase.sm_cond_ask_user_for_approval` (base.py lines 234-239):
the configured flag for `MultiImageJobControl`, otherwise `False`. -/
def sm_cond_ask_user_for_approval (m : JobModel) : Bool :=
  match m.jobcontrol with
  | .multiImage _ _ ask => ask
  | _ => false

/-- The `duration_user` selection inside `start_countdown` (base.py lines
242-250): single/video/multicamera use `countdown_capture`; multi-image uses
`countdown_capture` for the first capture and
`countdown_capture_second_following` once at least one capture was taken. -/
def duration_user (m : JobModel) : ℚ :=
  match m.jobcontrol with
  | .singleImage d => d
  | .video d => d
  | .multicamera d => d
  | .multiImage d d2 _ =>
    if captures_taken m = 0 then d else d2

/-- Embedding of `JobModelBase.start_countdown` (base.py lines 241-256): computes
`_offset = offset if offset <= duration_user else duration_user` and starts
the timer with `duration_user - _offset`; the embedding returns the duration
handed to `CountdownTimer.start`. -/
def start_countdown (m : JobModel) (offset : ℚ) : ℚ :=
  let du := duration_user m
  let o := if offset ≤ du then offset else du
  du - o

/-- The `duration` entry of `JobModelBase.export` (base.py line 156):
`self._countdown_timer._duration + appconfig.backends.countdown_camera_capture_offset
if self._countdown_timer._duration else 0` — Python truthiness: the sum is
used only when the timer duration is nonzero, else the entry is `0`. -/
def export_duration (m : JobModel) (countdown_camera_capture_offset : ℚ) : ℚ :=
  if m.countdown_timer_duration ≠ 0 then
    m.countdown_timer_duration + countdown_camera_capture_offset
  else 0

/-! ## Stable-file wait (`_wait_until_file_stable`, base.py lines 48-71)

The Python loop runs `while time.time() < deadline`, with
`deadline = time.time() + timeout_s` and `time.sleep(interval_s)` at the end
of every iteration. Iteration `i` therefore begins at a time at least
`i * interval_s` past the start, so it executes only if
`i * interval_s < timeout_s`: the number of iterations is bounded by
`⌈timeout_s / interval_s⌉`. The embedding runs the loop body over exactly the
iterations `i` with `i * interval_s < timeout_s` (the maximal schedule; the
real loop may execute fewer iterations when the body itself consumes time).

Each iteration observes the file: `poll i = none` models `path.is_file()`
returning `False` (no size is read and `last_size` is not updated);
`poll i = some s` models a size record — `s = st_size ≥ 0` from a successful
`stat`, or `s = -1` when `stat` raises `FileNotFoundError` (caught in the
code). The loop returns early when the recorded size is positive and equal
to the previously recorded size (`size > 0 and size == last_size`); on
deadline exhaustion it returns normally (the commented-out `TimeoutError` is
dead code). The function body raises nothing: the only fallible call is
wrapped in `try/except FileNotFoundError`. -/

/-- The loop body of `_wait_until_file_stable`, threading `last_size`.
Input: the per-iteration observations; output: whether stability was
detected, and how many iterations ran (the early return counts its own
iteration). -/
def waitLoop : List (Option ℤ) → ℤ → Bool × ℕ
  | [], _ => (false, 0)
  | none :: rest, last_size =>
    ((waitLoop rest last_size).1, (waitLoop rest last_size).2 + 1)
  | some size :: rest, last_size =>
    if 0 < size ∧ size = last_size then (true, 1)
    else ((waitLoop rest size).1, (waitLoop rest size).2 + 1)

/-- Upper bound on the number of loop iterations before the deadline:
`⌈timeout_s / interval_s⌉`. -/
def pollBudget (timeout_s interval_s : ℚ) : ℕ :=
  Nat.ceil (timeout_s / interval_s)

/-- Embedding of `_wait_until_file_stable(path, timeout_s, interval_s)` with the observable
behaviour of the file abstracted as `polls`. Starts with `last_size = -1`. -/
def wait_until_file_stable (polls : ℕ → Option ℤ) (timeout_s interval_s : ℚ) :
    Bool × ℕ :=
  waitLoop ((List.range (pollBudget timeout_s interval_s)).map polls) (-1)

/-- Returns `true` iff the list of recorded sizes contains two consecutive entries
that are equal and positive — the stability criterion of the spec. -/
def hasStablePair : List ℤ → Bool
  | a :: b :: rest => (decide (0 < b) && decide (a = b)) || hasStablePair (b :: rest)
  | _ => false

/-! ## File movers

`move_capture_with_fallback` exists in two variants: the still-image one in
base.py (rename first, one `shutil.move` fallback) and the video one in
video.py (no rename, `retries` bounded `shutil.move` attempts with
`retry_delay_s` sleeps in between). Filesystem effects are recorded as a
trace of `MoveStep` actions; syscall outcomes are inputs. Error values are
abstracted as `ℕ` tokens so that "which error is re-raised" is expressible. -/

inductive MoveStep where
  | mkdirParent
  | waitStable
  | renameAttempt
  | shutilMoveAttempt
  | sleepRetry
deriving DecidableEq

/-- Still-image `move_capture_with_fallback` (base.py lines 74-103).
`renameOutcome = none` models `src.rename(dst)` succeeding (it returns the
new path, `dst`); `some e` models it raising `OSError e`. `shutilOutcome`
models the single fallback `shutil.move` call: `.ok moved` is the path it
returns, `.error e2` any exception it raises (after which the ORIGINAL
rename error `e` is re-raised). Returns the action trace and the result. -/
def move_capture_with_fallback (dst : String) (wait_stable : Bool)
    (renameOutcome : Option ℕ) (shutilOutcome : Except ℕ String) :
    List MoveStep × Except ℕ String :=
  let pre := MoveStep.mkdirParent :: (if wait_stable then [MoveStep.waitStable] else [])
  match renameOutcome with
  | none => (pre ++ [MoveStep.renameAttempt], Except.ok dst)
  | some e =>
    match shutilOutcome with
    | .ok moved =>
      (pre ++ [MoveStep.renameAttempt, MoveStep.shutilMoveAttempt], Except.ok moved)
    | .error _ =>
      (pre ++ [MoveStep.renameAttempt, MoveStep.shutilMoveAttempt], Except.error e)

/-- The retry loop of the video `move_capture_with_fallback` (video.py lines
69-78): `for attempt in range(retries)` with `i` the current attempt index,
`remaining` the attempts left and `last_exc` threaded. On success returns the
path `shutil.move` returned; when attempts are exhausted raises
`RuntimeError(...) from last_exc` (error payload: the wrapped `last_exc`,
`none` when `retries == 0`). Sleeps `retry_delay_s` only when
`attempt < retries - 1`, i.e. when more attempts remain. -/
def videoMoveLoop (outcomes : ℕ → Except ℕ String) :
    ℕ → ℕ → Option ℕ → List MoveStep × Except (Option ℕ) String
  | _, 0, last_exc => ([], Except.error last_exc)
  | i, remaining + 1, _ =>
    match outcomes i with
    | .ok moved => ([MoveStep.shutilMoveAttempt], Except.ok moved)
    | .error e =>
      let t := videoMoveLoop outcomes (i + 1) remaining (some e)
      (MoveStep.shutilMoveAttempt ::
        ((if 0 < remaining then [MoveStep.sleepRetry] else []) ++ t.1), t.2)

/-- Default `retries` of the video mover (video.py line 52). -/
def video_move_default_retries : ℕ := 5

/-- Video `move_capture_with_fallback` (video.py lines 46-78): mkdir the
parent directory of the destination, optionally wait for stability, then only the
`shutil.move` retry loop — no rename is ever attempted. -/
def move_capture_with_fallback_video (wait_stable : Bool) (retries : ℕ)
    (outcomes : ℕ → Except ℕ String) :
    List MoveStep × Except (Option ℕ) String :=
  let pre := MoveStep.mkdirParent :: (if wait_stable then [MoveStep.waitStable] else [])
  let t := videoMoveLoop outcomes 0 retries none
  (pre ++ t.1, t.2)

/-! ## State machine (transition structure) -/

/-- The states of the processing machine. -/
inductive SMState where
  | created
  | counting
  | capture
  | approval
  | completed
  | finished
deriving DecidableEq

/-- Modelled from the spec: the transition table of `ProcessingMachine`
(services/processor/machine/processingmachine.py is not part of the supplied
source; only the guard methods `sm_cond_ask_user_for_approval` and
`sm_cond_all_captures_done` are). Per spec §4.1:
`created → counting` on start; `counting → capture` when the countdown
elapses; `capture → approval` only if the ask-user-for-approval condition
holds; `capture → counting`/`capture → completed` when approval is not
required (branch on all-captures-done, here over-approximated by allowing
both branches); `approval → counting` on reject or on next with captures
remaining; `approval → completed` on next when done; `abort` from counting,
capture or approval goes to `finished`; `completed → finished` always.
The parameter `ask` is the (configuration-determined, hence constant)
value of the ask-user-for-approval guard. -/
inductive SMStep (ask : Bool) : SMState → SMState → Prop
  | start : SMStep ask .created .counting
  | countdown_elapsed : SMStep ask .counting .capture
  | capture_to_approval : ask = true → SMStep ask .capture .approval
  | capture_repeat : ask = false → SMStep ask .capture .counting
  | capture_done : ask = false → SMStep ask .capture .completed
  | approval_to_counting : SMStep ask .approval .counting
  | approval_done : SMStep ask .approval .completed
  | abort_counting : SMStep ask .counting .finished
  | abort_capture : SMStep ask .capture .finished
  | abort_approval : SMStep ask .approval .finished
  | completed_to_finished : SMStep ask .completed .finished

/-- A state reachable from `created` by zero or more transitions. -/
def SMReachable (ask : Bool) (s : SMState) : Prop :=
  Relation.ReflTransGen (SMStep ask) SMState.created s

/-! ## Concrete instances used by counterexamples and witnesses -/

def capA : Capture := ⟨"tmp/a.jpg", 1⟩
def capB : Capture := ⟨"tmp/b.jpg", 2⟩
def capC : Capture := ⟨"tmp/c.jpg", 3⟩
def csA : CaptureSet := ⟨[capA], 10⟩
def csB : CaptureSet := ⟨[capB, capC], 11⟩

/-- A job that requires 1 capture but has accumulated 2 capture sets. -/
def jobOver : JobModel :=
  { jobcontrol := JobControl.singleImage 3
    capture_sets := [csA, csB]
    countdown_timer_duration := 0
    total_captures_to_take := 1 }

/-- A single-image job whose countdown was started with
`countdown_capture = 3` and camera offset `5 > 3`: the timer is configured
with effective duration `3 - min 5 3 = 0`. -/
def jobZeroTimer : JobModel :=
  { jobcontrol := JobControl.singleImage 3
    capture_sets := []
    countdown_timer_duration :=
      start_countdown
        { jobcontrol := JobControl.singleImage 3
          capture_sets := []
          countdown_timer_duration := 0
          total_captures_to_take := 1 } 5
    total_captures_to_take := 1 }

/-- A multi-image job configured to ask approval after each capture. -/
def jobMultiAsk : JobModel :=
  { jobcontrol := JobControl.multiImage 4 2 true
    capture_sets := [csA]
    countdown_timer_duration := 0
    total_captures_to_take := 3 }

/-- A single-image job (ask-for-approval guard must be false). -/
def jobSingle : JobModel :=
  { jobcontrol := JobControl.singleImage 3
    capture_sets := []
    countdown_timer_duration := 0
    total_captures_to_take := 1 }

/-! ## Theorems -/

/-- C1, counterexample. The claim states the exported remaining-captures
counter equals `max(0, total − taken)` and is never negative even when the
accumulated CaptureSets exceed the total required. On a job with
`total_captures_to_take = 1` and two accumulated capture sets, the code
(`base.py` line 229: plain subtraction) yields `-1`, not
`max(0, 1 − 2) = 0`. -/
theorem c1_counterexample :
    remaining_captures_to_take jobOver = -1 ∧
    max 0 ((jobOver.total_captures_to_take : ℤ) - (captures_taken jobOver : ℤ)) = 0 ∧
    remaining_captures_to_take jobOver ≠
      max 0 ((jobOver.total_captures_to_take : ℤ) - (captures_taken jobOver : ℤ)) := by
  refine ⟨by decide, by decide, by decide⟩

/-- C1, amended. `remaining_captures_to_take` is the plain integer
difference `total − taken` (which is negative whenever the accumulated
CaptureSets exceed the total required); it agrees with
`max(0, total − taken)` exactly when `taken ≤ total`. -/
theorem c1_remaining_captures (m : JobModel) :
    remaining_captures_to_take m =
      (m.total_captures_to_take : ℤ) - (captures_taken m : ℤ) ∧
    (captures_taken m ≤ m.total_captures_to_take →
      remaining_captures_to_take m =
        max 0 ((m.total_captures_to_take : ℤ) - (captures_taken m : ℤ))) := by
  refine ⟨rfl, fun h => ?_⟩
  rw [remaining_captures_to_take]
  omega

/-- Witness for `c1_remaining_captures` at a concrete job. -/
theorem c1_remaining_captures_witness :
    captures_taken jobSingle ≤ jobSingle.total_captures_to_take ∧
    remaining_captures_to_take jobSingle =
      max 0 ((jobSingle.total_captures_to_take : ℤ) - (captures_taken jobSingle : ℤ)) :=
  ⟨by decide, (c1_remaining_captures jobSingle).2 (by decide)⟩

/-- C2: on a job with non-empty capture history, the reject branch of
`on_exit_approval` pops exactly the most recently appended CaptureSet,
attempts deletion of every file that set referenced, and leaves all earlier
CaptureSets unchanged (the new list is the old one minus its last element,
so exactly one set is removed and earlier positions are untouched). -/
theorem c2_reject_pops_last (sets : List CaptureSet) (lastSet : CaptureSet)
    (h : sets.getLast? = some lastSet) :
    on_exit_approval sets ApprovalEvent.reject =
      (some sets.dropLast, lastSet.captures.map (fun c => c.filepath)) ∧
    sets.dropLast.length + 1 = sets.length ∧
    (∀ i, i < sets.length - 1 → sets.dropLast[i]? = sets[i]?) := by
  have hne : sets ≠ [] := by
    intro hnil
    rw [hnil] at h
    simp at h
  refine ⟨by simp [on_exit_approval, h, remove_files], ?_, ?_⟩
  · have hlen : 0 < sets.length := List.length_pos.mpr hne
    simp [List.length_dropLast]
    omega
  · intro i hi
    rw [List.dropLast_eq_take, List.getElem?_take]
    simp [hi]

/-- Witness for `c2_reject_pops_last` at a concrete two-set history. -/
theorem c2_reject_pops_last_witness :
    [csA, csB].getLast? = some csB ∧
    on_exit_approval [csA, csB] ApprovalEvent.reject =
      (some [csA], csB.captures.map (fun c => c.filepath)) :=
  ⟨by decide, ((c2_reject_pops_last [csA, csB] csB (by decide)).1)⟩

/-- C3: the abort branch of `on_exit_approval` attempts deletion of the
backing files of every accumulated CaptureSet and leaves the capture-set
collection empty; running it again on the now-empty history changes nothing
and deletes nothing (abort is idempotent on an empty capture history). -/
theorem c3_abort_clears (sets : List CaptureSet) :
    on_exit_approval sets ApprovalEvent.abort =
      (some [], (sets.map remove_files).flatten) ∧
    (∀ cs, cs ∈ sets → ∀ c, c ∈ cs.captures →
      c.filepath ∈ (on_exit_approval sets ApprovalEvent.abort).2) ∧
    on_exit_approval [] ApprovalEvent.abort = (some [], []) := by
  refine ⟨rfl, ?_, rfl⟩
  intro cs hcs c hc
  simp only [on_exit_approval, List.mem_flatten, List.mem_map]
  exact ⟨remove_files cs, ⟨cs, hcs, rfl⟩, List.mem_map.mpr ⟨c, hc, rfl⟩⟩

/-- Witness for `c3_abort_clears` at a concrete history. -/
theorem c3_abort_clears_witness :
    csB ∈ [csA, csB] ∧ capC ∈ csB.captures ∧
    capC.filepath ∈ (on_exit_approval [csA, csB] ApprovalEvent.abort).2 :=
  ⟨by decide, by decide,
    (c3_abort_clears [csA, csB]).2.1 csB (by decide) capC (by decide)⟩

/-- C10: delivering reject on an empty capture history raises
(`list.pop()` on the empty `_capture_sets` raises `IndexError` — the first
component is `none`) and attempts no file deletion; abort on the same empty
history is a normal no-op. A non-empty history is therefore a precondition
for a safe reject. -/
theorem c10_reject_empty_raises :
    on_exit_approval [] ApprovalEvent.reject = (none, []) ∧
    on_exit_approval [] ApprovalEvent.abort = (some [], []) :=
  ⟨rfl, rfl⟩

/-- C4: `start_countdown` starts the timer with effective duration
`d − min(offset, d)` where `d` is the selected configured duration; for any
offset exceeding the duration the effective duration is exactly `0`; and it
is never negative (for nonnegative configuration values). -/
theorem c4_countdown_offset_clamp (m : JobModel) (offset : ℚ) :
    start_countdown m offset = duration_user m - min offset (duration_user m) ∧
    (duration_user m < offset → start_countdown m offset = 0) ∧
    (0 ≤ offset → 0 ≤ duration_user m → 0 ≤ start_countdown m offset) := by
  simp only [start_countdown]
  refine ⟨by rw [min_def], fun h => ?_, fun ho hd => ?_⟩
  · rw [if_neg (not_le.mpr h), sub_self]
  · split
    · linarith
    · rw [sub_self]

/-- Witness for `c4_countdown_offset_clamp` at a concrete job and an offset
exceeding the configured duration. -/
theorem c4_countdown_offset_clamp_witness :
    duration_user jobSingle < 5 ∧ (0 : ℚ) ≤ 5 ∧ 0 ≤ duration_user jobSingle ∧
    start_countdown jobSingle 5 = 0 ∧ 0 ≤ start_countdown jobSingle 5 := by
  have h := c4_countdown_offset_clamp jobSingle 5
  have hd : duration_user jobSingle < 5 := by decide
  exact ⟨hd, by norm_num, by decide, h.2.1 hd, h.2.2 (by norm_num) (by decide)⟩

/-- C9, counterexample. The claim states the exported `duration` equals the
configured countdown duration plus the capture offset, and `0` only when no
countdown has been configured. On a single-image job whose countdown was
started with `countdown_capture = 3` and camera offset `5` (so the timer was
configured with effective duration `0`, per `start_countdown`), the export
entry is `0` — not `0 + 5 = 5` — because line 156 of base.py guards the sum
with the truthiness of `_countdown_timer._duration`. -/
theorem c9_counterexample :
    jobZeroTimer.countdown_timer_duration = 0 ∧
    export_duration jobZeroTimer 5 = 0 ∧
    export_duration jobZeroTimer 5 ≠ jobZeroTimer.countdown_timer_duration + 5 := by
  have h0 : jobZeroTimer.countdown_timer_duration = 0 := by
    norm_num [jobZeroTimer, start_countdown, duration_user]
  have h1 : export_duration jobZeroTimer 5 = 0 := by
    simp [export_duration, h0]
  refine ⟨h0, h1, ?_⟩
  rw [h0, h1]
  norm_num

/-- C9, amended. The exported `duration` equals the configured
duration of the countdown timer plus the capture offset whenever that timer duration is
nonzero, and is `0` whenever the timer duration is `0` — which covers both
a job whose countdown has not been configured yet and a countdown that was
configured with effective duration `0` (camera offset ≥ configured
countdown). -/
theorem c9_export_duration (m : JobModel) (offset : ℚ) :
    (m.countdown_timer_duration ≠ 0 →
      export_duration m offset = m.countdown_timer_duration + offset) ∧
    (m.countdown_timer_duration = 0 → export_duration m offset = 0) := by
  constructor <;> intro h <;> simp [export_duration, h]

/-- Witness for `c9_export_duration` at concrete jobs with nonzero and zero
timer durations. -/
theorem c9_export_duration_witness :
    ((2 : ℚ) ≠ 0 ∧
      export_duration
        { jobcontrol := JobControl.singleImage 3, capture_sets := [],
          countdown_timer_duration := 2, total_captures_to_take := 1 } 5 = 2 + 5) ∧
    (jobSingle.countdown_timer_duration = 0 ∧ export_duration jobSingle 5 = 0) :=
  ⟨⟨by norm_num,
    (c9_export_duration
      { jobcontrol := JobControl.singleImage 3, capture_sets := [],
        countdown_timer_duration := 2, total_captures_to_take := 1 } 5).1 (by norm_num)⟩,
   ⟨rfl, (c9_export_duration jobSingle 5).2 rfl⟩⟩

/-- With the ask-for-approval guard false, no transition enters `approval`
(the only edge into `approval` is guarded by the condition). -/
lemma smstep_false_not_approval {s s' : SMState} (h : SMStep false s s') :
    s' ≠ SMState.approval := by
  cases h <;> simp_all

/-- With the ask-for-approval guard false, `approval` is unreachable from
`created`. -/
lemma smreachable_false_not_approval {s : SMState}
    (h : SMReachable false s) : s ≠ SMState.approval := by
  induction h with
  | refl => simp
  | tail _ hstep _ => exact smstep_false_not_approval hstep

/-- A concrete run reaching `finished` with the guard false:
`created → counting → capture → completed → finished`. -/
lemma smreachable_false_finished : SMReachable false SMState.finished :=
  Relation.ReflTransGen.tail
    (Relation.ReflTransGen.tail
      (Relation.ReflTransGen.tail
        (Relation.ReflTransGen.tail Relation.ReflTransGen.refl SMStep.start)
        SMStep.countdown_elapsed)
      (SMStep.capture_done rfl))
    SMStep.completed_to_finished

/-- C7: the ask-user-for-approval guard returns the configured
`ask_approval_each_capture` flag for a multi-image jobcontrol and `false`
for every other jobcontrol; when the guard holds, every transition out of
`capture` goes to `approval` (or to `finished` via abort) — the machine
never proceeds past `capture` without visiting `approval`; when the guard is
false, no reachable state is `approval`. -/
theorem c7_approval_gating (m : JobModel) :
    (∀ d1 d2 a, m.jobcontrol = JobControl.multiImage d1 d2 a →
      sm_cond_ask_user_for_approval m = a) ∧
    ((∀ d1 d2 a, m.jobcontrol ≠ JobControl.multiImage d1 d2 a) →
      sm_cond_ask_user_for_approval m = false) ∧
    (sm_cond_ask_user_for_approval m = true →
      ∀ s, SMStep (sm_cond_ask_user_for_approval m) SMState.capture s →
        s = SMState.approval ∨ s = SMState.finished) ∧
    (sm_cond_ask_user_for_approval m = false →
      ∀ s, SMReachable (sm_cond_ask_user_for_approval m) s →
        s ≠ SMState.approval) := by
  refine ⟨?_, ?_, ?_, ?_⟩
  · intro d1 d2 a hjc
    simp [sm_cond_ask_user_for_approval, hjc]
  · intro hnot
    cases hm : m.jobcontrol with
    | multiImage d1 d2 a => exact absurd hm (hnot d1 d2 a)
    | singleImage d => simp [sm_cond_ask_user_for_approval, hm]
    | video d => simp [sm_cond_ask_user_for_approval, hm]
    | multicamera d => simp [sm_cond_ask_user_for_approval, hm]
  · intro hg s hs
    rw [hg] at hs
    cases hs with
    | capture_to_approval _ => exact Or.inl rfl
    | capture_repeat hfalse => exact absurd hfalse (by simp)
    | capture_done hfalse => exact absurd hfalse (by simp)
    | abort_capture => exact Or.inr rfl
  · intro hg s hreach
    rw [hg] at hreach
    exact smreachable_false_not_approval hreach

/-- Witness for `c7_approval_gating`: a multi-image job with the flag set
has a guarded transition `capture → approval`; a single-image job has guard
false and the concrete reachable state `finished` is not `approval`. -/
theorem c7_approval_gating_witness :
    sm_cond_ask_user_for_approval jobMultiAsk = true ∧
    sm_cond_ask_user_for_approval jobSingle = false ∧
    (SMState.approval = SMState.approval ∨ SMState.approval = SMState.finished) ∧
    SMState.finished ≠ SMState.approval := by
  have hM := c7_approval_gating jobMultiAsk
  have hS := c7_approval_gating jobSingle
  have hg : sm_cond_ask_user_for_approval jobMultiAsk = true :=
    hM.1 4 2 true rfl
  have hgS : sm_cond_ask_user_for_approval jobSingle = false :=
    hS.2.1 (by intro d1 d2 a; simp [jobSingle])
  refine ⟨hg, hgS, ?_, ?_⟩
  · exact hM.2.2.1 hg SMState.approval
      (by rw [hg]; exact SMStep.capture_to_approval rfl)
  · exact hS.2.2.2 hgS SMState.finished
      (by rw [hgS]; exact smreachable_false_finished)

/-- C5: the still-image mover first creates the parent
directory of the destination (the trace starts with `mkdirParent`, optionally followed by the
stability wait), attempts the rename exactly once, and performs the
`shutil.move` fallback exactly when the rename raised — never more than
once. On rename success it returns `dst`; on fallback success it returns
the path `shutil.move` reported; when the fallback also fails it re-raises
the original rename error `e` (not the error `e2` of the fallback). -/
theorem c5_still_mover (dst : String) (ws : Bool) (rn : Option ℕ)
    (sh : Except ℕ String) :
    (move_capture_with_fallback dst ws rn sh).1 =
      MoveStep.mkdirParent ::
        ((if ws then [MoveStep.waitStable] else []) ++
          MoveStep.renameAttempt ::
            (if rn = none then [] else [MoveStep.shutilMoveAttempt])) ∧
    (rn = none → (move_capture_with_fallback dst ws rn sh).2 = Except.ok dst) ∧
    (∀ e moved, rn = some e → sh = Except.ok moved →
      (move_capture_with_fallback dst ws rn sh).2 = Except.ok moved) ∧
    (∀ e e2, rn = some e → sh = Except.error e2 →
      (move_capture_with_fallback dst ws rn sh).2 = Except.error e) := by
  cases rn <;> cases sh <;>
    simp [move_capture_with_fallback]

/-- Witness for `c5_still_mover`: rename raises error `7`, the single
fallback raises error `9`, and the original error `7` is re-raised. -/
theorem c5_still_mover_witness :
    (move_capture_with_fallback "d.jpg" true (some 7) (Except.error 9)).2 =
      Except.error 7 ∧
    (move_capture_with_fallback "d.jpg" true (some 7) (Except.error 9)).1 =
      [MoveStep.mkdirParent, MoveStep.waitStable, MoveStep.renameAttempt,
        MoveStep.shutilMoveAttempt] := by
  have h := c5_still_mover "d.jpg" true (some 7) (Except.error 9)
  refine ⟨h.2.2.2 7 9 rfl rfl, ?_⟩
  rw [h.1]
  rfl

/-- The video retry loop never records a rename attempt. -/
lemma videoMoveLoop_no_rename (outcomes : ℕ → Except ℕ String) :
    ∀ remaining i last_exc,
      MoveStep.renameAttempt ∉ (videoMoveLoop outcomes i remaining last_exc).1 := by
  intro remaining
  induction remaining with
  | zero => intro i last_exc; simp [videoMoveLoop]
  | succ r ih =>
    intro i last_exc
    cases houtcome : outcomes i with
    | ok moved => simp [videoMoveLoop, houtcome]
    | error e =>
      by_cases hr : 0 < r <;>
        simp [videoMoveLoop, houtcome, hr, ih (i + 1) (some e)]

/-- If attempt `k` is the first to succeed, the video retry loop returns its
result and performs exactly `k + 1` move attempts. -/
lemma videoMoveLoop_first_ok (outcomes : ℕ → Except ℕ String) :
    ∀ k remaining i last_exc moved, k < remaining →
      outcomes (i + k) = Except.ok moved →
      (∀ j, j < k → ∃ e, outcomes (i + j) = Except.error e) →
      (videoMoveLoop outcomes i remaining last_exc).2 = Except.ok moved ∧
      (videoMoveLoop outcomes i remaining last_exc).1.count
        MoveStep.shutilMoveAttempt = k + 1 := by
  intro k
  induction k with
  | zero =>
    intro remaining i last_exc moved hk hok _
    obtain ⟨r, rfl⟩ : ∃ r, remaining = r + 1 := ⟨remaining - 1, by omega⟩
    rw [Nat.add_zero] at hok
    simp [videoMoveLoop, hok, List.count_cons]
  | succ k ih =>
    intro remaining i last_exc moved hk hok hfail
    obtain ⟨r, rfl⟩ : ∃ r, remaining = r + 1 := ⟨remaining - 1, by omega⟩
    obtain ⟨e, he⟩ := hfail 0 (by omega)
    rw [Nat.add_zero] at he
    have ihx := ih r (i + 1) (some e) moved (by omega)
      (by rw [show i + 1 + k = i + (k + 1) by omega]; exact hok)
      (by intro j hj
          obtain ⟨e2, he2⟩ := hfail (j + 1) (by omega)
          exact ⟨e2, by rw [show i + 1 + j = i + (j + 1) by omega]; exact he2⟩)
    by_cases hr : 0 < r <;>
      simp [videoMoveLoop, he, hr, ihx.1, ihx.2, List.count_cons]

/-- If every attempt fails, the video retry loop raises an error wrapping
the failure of the last attempt, performs exactly `remaining` move attempts and
sleeps between consecutive attempts (`remaining - 1` times). -/
lemma videoMoveLoop_all_fail (outcomes : ℕ → Except ℕ String) (err : ℕ → ℕ) :
    ∀ remaining i last_exc, 0 < remaining →
      (∀ j, j < remaining → outcomes (i + j) = Except.error (err (i + j))) →
      (videoMoveLoop outcomes i remaining last_exc).2 =
        Except.error (some (err (i + remaining - 1))) ∧
      (videoMoveLoop outcomes i remaining last_exc).1.count
        MoveStep.shutilMoveAttempt = remaining ∧
      (videoMoveLoop outcomes i remaining last_exc).1.count
        MoveStep.sleepRetry = remaining - 1 := by
  intro remaining
  induction remaining with
  | zero => intro i last_exc h; omega
  | succ r ih =>
    intro i last_exc _ hfail
    have he : outcomes i = Except.error (err i) := by
      have h0 := hfail 0 (by omega)
      rwa [Nat.add_zero] at h0
    rcases Nat.eq_zero_or_pos r with hr0 | hrpos
    · subst hr0
      simp [videoMoveLoop, he, List.count_cons]
    · have ihx := ih (i + 1) (some (err i)) hrpos
        (by intro j hj
            rw [show i + 1 + j = i + (j + 1) by omega]
            exact hfail (j + 1) (by omega))
      have hidx : i + 1 + r - 1 = i + (r + 1) - 1 := by omega
      rw [hidx] at ihx
      simp [videoMoveLoop, he, hrpos, ihx.1, ihx.2.1, ihx.2.2, List.count_cons]
      omega

/-- The video retry loop succeeds iff some attempt within the budget
succeeds. -/
lemma videoMoveLoop_ok_iff (outcomes : ℕ → Except ℕ String) :
    ∀ remaining i last_exc,
      (∃ moved, (videoMoveLoop outcomes i remaining last_exc).2 =
        Except.ok moved) ↔
      (∃ k, k < remaining ∧ ∃ moved, outcomes (i + k) = Except.ok moved) := by
  intro remaining
  induction remaining with
  | zero => intro i last_exc; simp [videoMoveLoop]
  | succ r ih =>
    intro i last_exc
    cases houtcome : outcomes i with
    | ok moved =>
      simp only [videoMoveLoop, houtcome]
      constructor
      · intro _
        exact ⟨0, by omega, moved, by rwa [Nat.add_zero]⟩
      · intro _
        exact ⟨moved, rfl⟩
    | error e =>
      have ihx := ih (i + 1) (some e)
      simp only [videoMoveLoop, houtcome]
      constructor
      · intro hex
        obtain ⟨k, hk, moved, hmv⟩ := ihx.mp hex
        exact ⟨k + 1, by omega, moved,
          by rw [show i + (k + 1) = i + 1 + k by omega]; exact hmv⟩
      · rintro ⟨k, hk, moved, hmv⟩
        cases k with
        | zero =>
          rw [Nat.add_zero, houtcome] at hmv
          cases hmv
        | succ k2 =>
          exact ihx.mpr ⟨k2, by omega, moved,
            by rw [show i + 1 + k2 = i + (k2 + 1) by omega]; exact hmv⟩

/-- C6: the video mover never attempts a rename; it performs a bounded
number of `shutil.move` attempts (`retries`, default 5 per
`video_move_default_retries`), sleeping the fixed retry delay between
consecutive attempts; it returns the reported path on the first attempt
that succeeds (having made exactly `k + 1` attempts); and it raises a
move-specific `RuntimeError` wrapping the last underlying failure if and
only if all attempts are exhausted. -/
theorem c6_video_mover (ws : Bool) (retries : ℕ) (outcomes : ℕ → Except ℕ String)
    (err : ℕ → ℕ) :
    MoveStep.renameAttempt ∉ (move_capture_with_fallback_video ws retries outcomes).1 ∧
    (∀ k moved, k < retries → outcomes k = Except.ok moved →
      (∀ j, j < k → ∃ e, outcomes j = Except.error e) →
      (move_capture_with_fallback_video ws retries outcomes).2 = Except.ok moved ∧
      (move_capture_with_fallback_video ws retries outcomes).1.count
        MoveStep.shutilMoveAttempt = k + 1) ∧
    (0 < retries → (∀ j, j < retries → outcomes j = Except.error (err j)) →
      (move_capture_with_fallback_video ws retries outcomes).2 =
        Except.error (some (err (retries - 1))) ∧
      (move_capture_with_fallback_video ws retries outcomes).1.count
        MoveStep.shutilMoveAttempt = retries ∧
      (move_capture_with_fallback_video ws retries outcomes).1.count
        MoveStep.sleepRetry = retries - 1) ∧
    ((∃ msg, (move_capture_with_fallback_video ws retries outcomes).2 =
        Except.error msg) ↔
      ∀ j, j < retries → ¬∃ moved, outcomes j = Except.ok moved) := by
  have hproj : (move_capture_with_fallback_video ws retries outcomes).2 =
      (videoMoveLoop outcomes 0 retries none).2 := rfl
  refine ⟨?_, ?_, ?_, ?_⟩
  · have h := videoMoveLoop_no_rename outcomes retries 0 none
    cases ws <;> simp [move_capture_with_fallback_video, h]
  · intro k moved hk hok hfail
    have h := videoMoveLoop_first_ok outcomes k retries 0 none moved hk
      (by rwa [Nat.zero_add]) (by intro j hj; rw [Nat.zero_add]; exact hfail j hj)
    cases ws <;>
      simp [move_capture_with_fallback_video, h.1, h.2, List.count_cons,
        List.count_append]
  · intro hpos hfail
    have h := videoMoveLoop_all_fail outcomes err retries 0 none hpos
      (by intro j hj; rw [Nat.zero_add]; exact hfail j hj)
    rw [Nat.zero_add] at h
    cases ws <;>
      simp [move_capture_with_fallback_video, h.1, h.2.1, h.2.2, List.count_cons,
        List.count_append]
  · have hiff := videoMoveLoop_ok_iff outcomes retries 0 none
    constructor
    · rintro ⟨msg, hmsg⟩ j hj ⟨moved, hmv⟩
      obtain ⟨mv, hmv2⟩ :=
        hiff.mpr ⟨j, hj, moved, by rwa [Nat.zero_add]⟩
      rw [hproj, hmv2] at hmsg
      cases hmsg
    · intro hnone
      have hno : ¬∃ moved, (videoMoveLoop outcomes 0 retries none).2 =
          Except.ok moved := by
        intro hex
        obtain ⟨k, hk, moved, hmv⟩ := hiff.mp hex
        exact hnone k hk ⟨moved, by rwa [Nat.zero_add] at hmv⟩
      rcases hres : (videoMoveLoop outcomes 0 retries none).2 with msg | moved
      · exact ⟨msg, by rw [hproj, hres]⟩
      · exact absurd ⟨moved, hres⟩ hno

/-- Witness for `c6_video_mover`: with the default 5 retries and every
attempt failing (attempt `j` raising error `100 + j`), the mover raises the
wrapper around the last failure `104` after 5 attempts and 4 sleeps. -/
theorem c6_video_mover_witness :
    0 < video_move_default_retries ∧
    (move_capture_with_fallback_video true video_move_default_retries
      (fun j => Except.error (100 + j))).2 = Except.error (some 104) ∧
    (move_capture_with_fallback_video true video_move_default_retries
      (fun j => Except.error (100 + j))).1.count MoveStep.shutilMoveAttempt = 5 ∧
    (move_capture_with_fallback_video true video_move_default_retries
      (fun j => Except.error (100 + j))).1.count MoveStep.sleepRetry = 4 := by
  have h := c6_video_mover true video_move_default_retries
    (fun j => Except.error (100 + j)) (fun j => 100 + j)
  have hpos : 0 < video_move_default_retries := by
    norm_num [video_move_default_retries]
  have h3 := h.2.2.1 hpos (fun j _ => rfl)
  refine ⟨hpos, ?_, ?_, ?_⟩
  · have := h3.1
    simpa [video_move_default_retries] using this
  · simpa [video_move_default_retries] using h3.2.1
  · simpa [video_move_default_retries] using h3.2.2

/-- The wait loop never runs more iterations than observations exist before
the deadline. -/
lemma waitLoop_count_le : ∀ (l : List (Option ℤ)) (last_size : ℤ),
    (waitLoop l last_size).2 ≤ l.length := by
  intro l
  induction l with
  | nil => intro last_size; simp [waitLoop]
  | cons p rest ih =>
    intro last_size
    cases p with
    | none =>
      have h := ih last_size
      simp only [waitLoop, List.length_cons]
      omega
    | some s =>
      by_cases hc : 0 < s ∧ s = last_size
      · obtain ⟨h1, h2⟩ := hc
        subst h2
        simp [waitLoop, h1]
      · have h := ih s
        simp only [waitLoop, if_neg hc, List.length_cons]
        omega

/-- When stability is never detected, the wait loop consumes every
observation before returning (it times out, normally). -/
lemma waitLoop_false_count : ∀ (l : List (Option ℤ)) (last_size : ℤ),
    (waitLoop l last_size).1 = false → (waitLoop l last_size).2 = l.length := by
  intro l
  induction l with
  | nil => intro last_size _; simp [waitLoop]
  | cons p rest ih =>
    intro last_size h
    cases p with
    | none =>
      simp only [waitLoop, List.length_cons]
      rw [ih last_size (by simpa [waitLoop] using h)]
    | some s =>
      by_cases hc : 0 < s ∧ s = last_size
      · obtain ⟨h1, h2⟩ := hc
        subst h2
        simp [waitLoop, h1] at h
      · simp only [waitLoop, if_neg hc, List.length_cons]
        rw [ih s (by simpa [waitLoop, if_neg hc] using h)]

/-- The wait loop detects stability exactly when the recorded sizes
(prefixed by the running `last_size`) contain two consecutive equal positive
entries. -/
lemma waitLoop_true_iff : ∀ (l : List (Option ℤ)) (last_size : ℤ),
    (waitLoop l last_size).1 = true ↔
      hasStablePair (last_size :: l.filterMap id) = true := by
  intro l
  induction l with
  | nil => intro last_size; simp [waitLoop, hasStablePair]
  | cons p rest ih =>
    intro last_size
    cases p with
    | none => simpa [waitLoop, List.filterMap_cons] using ih last_size
    | some s =>
      by_cases hc : 0 < s ∧ s = last_size
      · obtain ⟨h1, h2⟩ := hc
        subst h2
        simp [waitLoop, hasStablePair, List.filterMap_cons, h1]
      · have hfalse : (decide ((0:ℤ) < s) && decide (last_size = s)) = false := by
          by_cases h1 : (0:ℤ) < s
          · have h2 : last_size ≠ s := fun h => hc ⟨h1, h.symm⟩
            simp [h2]
          · simp [h1]
        simp only [waitLoop, if_neg hc, List.filterMap_cons, id_eq]
        rw [ih s]
        simp [hasStablePair, hfalse]

/-- The initial sentinel `last_size = -1` can never form a positive stable
pair, so it does not affect the stability criterion. -/
lemma hasStablePair_neg_one : ∀ (l : List ℤ),
    hasStablePair ((-1) :: l) = hasStablePair l := by
  intro l
  cases l with
  | nil => rfl
  | cons b rest =>
    have hfalse : (decide ((0:ℤ) < b) && decide ((-1:ℤ) = b)) = false := by
      by_cases h1 : (0:ℤ) < b
      · simp [show (-1:ℤ) ≠ b by omega]
      · simp [h1]
    simp [hasStablePair, hfalse]

/-- C8: `_wait_until_file_stable` terminates for every input and never
raises. The iterations are exactly those whose start lies before the
deadline (`i * interval < timeout`), so the iteration count never exceeds
`⌈timeout / interval⌉`; the loop returns early (reporting stability) iff
the polled sizes contain two consecutive records that are equal and
positive; otherwise it returns normally after exhausting the deadline —
timing out on an unstable or missing file produces a plain return, not an
error. -/
theorem c8_wait_stable (polls : ℕ → Option ℤ) (timeout_s interval_s : ℚ)
    (hI : 0 < interval_s) :
    (∀ i : ℕ, i < pollBudget timeout_s interval_s ↔
      (i : ℚ) * interval_s < timeout_s) ∧
    (wait_until_file_stable polls timeout_s interval_s).2 ≤
      pollBudget timeout_s interval_s ∧
    ((wait_until_file_stable polls timeout_s interval_s).1 = true ↔
      hasStablePair
        ((List.range (pollBudget timeout_s interval_s)).filterMap polls) = true) ∧
    ((wait_until_file_stable polls timeout_s interval_s).1 = false →
      (wait_until_file_stable polls timeout_s interval_s).2 =
        pollBudget timeout_s interval_s) := by
  refine ⟨?_, ?_, ?_, ?_⟩
  · intro i
    rw [pollBudget, Nat.lt_ceil, lt_div_iff₀ hI]
  · have h := waitLoop_count_le
      ((List.range (pollBudget timeout_s interval_s)).map polls) (-1)
    simpa [wait_until_file_stable] using h
  · have hmap : ((List.range (pollBudget timeout_s interval_s)).map polls).filterMap
        id = (List.range (pollBudget timeout_s interval_s)).filterMap polls := by
      simp [List.filterMap_map]
    rw [wait_until_file_stable, waitLoop_true_iff, hmap, hasStablePair_neg_one]
  · intro h
    have hcnt := waitLoop_false_count
      ((List.range (pollBudget timeout_s interval_s)).map polls) (-1)
      (by simpa [wait_until_file_stable] using h)
    simpa [wait_until_file_stable] using hcnt

/-- Witness for `c8_wait_stable`: a file of constant positive size `5`,
timeout `1`, interval `1/2`: the budget is two polls and stability is
detected. -/
theorem c8_wait_stable_witness :
    (0 : ℚ) < 1/2 ∧
    (wait_until_file_stable (fun _ => some 5) 1 (1/2)).1 = true := by
  have h := c8_wait_stable (fun _ => some 5) 1 (1/2) (by norm_num)
  refine ⟨by norm_num, ?_⟩
  apply h.2.2.1.mpr
  have hN : pollBudget 1 (1/2 : ℚ) = 2 := by
    have h2 : (1 : ℚ) / (1/2) = 2 := by norm_num
    rw [pollBudget, h2]
    simp
  rw [hN]
  decide

end Photobooth
